import Mathlib

/-!
# pulumi-api-rest: the bucket stack manager and its HTTP handler

A shallow embedding of `main.go`.  The provisioning engine (the Pulumi
automation API), the Pulumi program context and the syntax layer of
`encoding/json` are external collaborators: they are parameters of the
model (`Engine`, `Context.register`, the `scan` argument), everything
`main.go` itself does is a definition below.

Go functions that work by side effect are written in state-passing style
over a `World`: the state of the engine, the list of calls made to it and
what has been written to standard output.
-/

namespace PulumiApiRest

/-! ## Go values -/

/-- A Go `error` value, identified by the text its `Error()` method returns. -/
structure GoError where
  msg : String
deriving DecidableEq, Repr

/-- How a Go call ends: it returns a value, or it panics. -/
inductive Go (α : Type) where
  | ret (v : α)
  | panicked (value : String)
deriving Repr

/-- A JSON value; also the dynamic values (`interface{}`) the engine hands back
as stack outputs, which it decodes from JSON (`null` is the nil interface). -/
inductive Json where
  | null
  | bool (b : Bool)
  | num (literal : String)
  | str (s : String)
  | arr (items : List Json)
  | obj (members : List (String × Json))

/-- The dynamic type of a decoded value, as a failed type assertion prints it. -/
def Json.goType : Json → String
  | .null => "nil"
  | .bool _ => "bool"
  | .num _ => "float64"
  | .str _ => "string"
  | .arr _ => "[]interface {}"
  | .obj _ => "map[string]interface {}"

/-- The type assertion `v.(string)` in its one-result form: it panics unless
the dynamic type of `v` is `string`. -/
def Json.assertString : Json → Go String
  | .str s => .ret s
  | v => .panicked ("interface conversion: interface {} is " ++ v.goType ++ ", not string")

/-! ## The data model of `main.go` -/

/-- StackArgs holds the project and stack names. -/
structure StackArgs where
  ProjectName : String
  StackName : String
deriving DecidableEq, Repr

/-- BucketStackSpec holds the bucket name and a custom message. -/
structure BucketStackSpec where
  BucketName : String
  CustomMessage : String
deriving DecidableEq, Repr

/-- BucketStackArgs holds the stack and spec details. -/
structure BucketStackArgs where
  Stack : StackArgs
  Spec : BucketStackSpec
deriving DecidableEq, Repr

/-- The handle `auto.Stack`; `name` is what `s.Name()` returns. -/
structure Stack where
  name : String
deriving DecidableEq, Repr

/-- BucketStackManager manages a stack. -/
structure BucketStackManager where
  Name : String
  Stack : Stack
deriving DecidableEq, Repr

/-! ## The Pulumi program context -/

/-- The resource types `bucketDeployFunc` declares. -/
inductive ResourceType where
  | Bucket
  | BucketObject
  | BucketPublicAccessBlock
  | BucketPolicy
deriving DecidableEq, Repr

/-- A declared resource as other declarations refer to it: type and name. -/
structure Resource where
  typ : ResourceType
  name : String
deriving DecidableEq, Repr

/-- Argument values of a resource declaration: Pulumi inputs and the plain Go
values of the policy document. -/
inductive Input where
  /-- The value `pulumi.String(s)`. -/
  | String (s : String)
  /-- The value `pulumi.Bool(b)`. -/
  | Bool (b : Bool)
  /-- An output property of a declared resource, such as `siteBucket.ID()`. -/
  | Output (of : Resource) (property : String)
  /-- The value `pulumi.Sprintf(format, args...)`. -/
  | Sprintf (format : String) (args : List Input)
  /-- The value `pulumi.Any(v)`. -/
  | Any (v : Input)
  /-- A plain Go string. -/
  | str (s : String)
  /-- A Go slice literal. -/
  | slice (items : List Input)
  /-- A Go map literal with string keys. -/
  | map (entries : List (String × Input))
  /-- A nested argument struct, by the fields set in it. -/
  | Args (fields : List (String × Input))

/-- One resource declaration: the arguments of a `s3.NewX(ctx, name, args, opts...)`
call. `args` are the fields set in the argument struct, `dependsOn` the resources
of a `pulumi.DependsOn` option. -/
structure ResourceDecl where
  typ : ResourceType
  name : String
  args : List (String × Input)
  dependsOn : List Resource

/-- The resource a declaration creates. -/
def ResourceDecl.resource (d : ResourceDecl) : Resource := ⟨d.typ, d.name⟩

/-- The program context `*pulumi.Context`: the resources registered and the
outputs exported so far. `register` is the verdict of the SDK on a
declaration, given what is registered already: `none` accepts it, `some err` is
the error the `s3.NewX` call returns. -/
structure Context where
  register : List ResourceDecl → ResourceDecl → Option GoError
  resources : List ResourceDecl
  exports : List (String × Input)

/-- A call `s3.NewX(ctx, name, args, opts...)`: the declaration is added to the
context and its resource returned, unless the SDK rejects it. -/
def Context.newResource (ctx : Context) (d : ResourceDecl) : Except GoError Resource × Context :=
  match ctx.register ctx.resources d with
  | some err => (.error err, ctx)
  | none => (.ok d.resource, { ctx with resources := ctx.resources ++ [d] })

/-- The call `ctx.Export(name, value)`. -/
def Context.Export (ctx : Context) (name : String) (value : Input) : Context :=
  { ctx with exports := ctx.exports ++ [(name, value)] }

/-- An inline program, `func(ctx *pulumi.Context) error`. -/
abbrev Program := Context → Option GoError × Context

/-! ## The provisioning engine -/

/-- The value type `auto.ConfigValue`. -/
structure ConfigValue where
  Value : String
  Secret : Bool := false
deriving DecidableEq, Repr

/-- The Go map `auto.ConfigMap`, as its entries in insertion order. -/
abbrev ConfigMap := List (String × ConfigValue)

/-- Assignment `m[k] = v` on a Go map: an existing key is overwritten. -/
def ConfigMap.assign (m : ConfigMap) (k : String) (v : ConfigValue) : ConfigMap :=
  match m with
  | [] => [(k, v)]
  | e :: rest => if e.1 = k then (k, v) :: rest else e :: ConfigMap.assign rest k v

/-- Lookup `m[k]` with the presence flag. -/
def ConfigMap.lookup (m : ConfigMap) (k : String) : Option ConfigValue :=
  (m.find? (fun e => e.1 = k)).map Prod.snd

/-- The value type `auto.OutputValue`. -/
structure OutputValue where
  Value : Json
  Secret : Bool

/-- The Go map `auto.OutputMap`. -/
abbrev OutputMap := List (String × OutputValue)

/-- Lookup `m[k]` on a Go map: a missing key gives the zero value, here a nil
`Value`. -/
def OutputMap.get (m : OutputMap) (k : String) : OutputValue :=
  match m.find? (fun e => e.1 = k) with
  | some e => e.2
  | none => ⟨Json.null, false⟩

/-- The part of `auto.UpResult` the program reads. -/
structure UpResult where
  StdOut : String
  StdErr : String
  Outputs : OutputMap

/-- Where progress text can be streamed; the program only ever names `os.Stdout`. -/
inductive Writer where
  | Stdout
deriving DecidableEq, Repr

/-- What a lifecycle verb of the engine gives back: its result and the progress
text it emits while it runs. -/
structure VerbOutcome (α σ : Type) where
  result : Except GoError α
  progress : String
  state : σ

/-- The capability set of the provisioning engine, over an engine state `σ`
(the persisted stacks, locks and remote resources). -/
structure Engine (σ : Type) where
  UpsertStackInlineSource : String → String → Program → σ → Except GoError Stack × σ
  SetAllConfig : Stack → ConfigMap → σ → Option GoError × σ
  Up : Stack → σ → VerbOutcome UpResult σ
  Refresh : Stack → σ → VerbOutcome Unit σ
  Destroy : Stack → σ → VerbOutcome Unit σ
  Cancel : Stack → σ → Option GoError × σ

/-- A call received by the engine, with the arguments the program passed;
`progressStreams` are the writers of a `ProgressStreams` option, empty when the
call has no such option. -/
inductive EngineCall where
  | UpsertStackInlineSource (stackName projectName : String) (program : Program)
  | SetAllConfig (stack : Stack) (config : ConfigMap)
  | Up (stack : Stack) (progressStreams : List Writer)
  | Refresh (stack : Stack) (progressStreams : List Writer)
  | Destroy (stack : Stack) (progressStreams : List Writer)
  | Cancel (stack : Stack)

/-- Whether a call is one of the four lifecycle verbs. -/
def EngineCall.isVerb : EngineCall → Bool
  | .Up _ _ => true
  | .Refresh _ _ => true
  | .Destroy _ _ => true
  | .Cancel _ => true
  | _ => false

/-- A write to standard output: a `fmt.Printf` of the program, kept as its format
and arguments, or progress text streamed by the engine. -/
inductive StdoutWrite where
  | Printf (format : String) (args : List String)
  | Progress (text : String)
deriving DecidableEq, Repr

/-- Everything outside the process memory of one request. -/
structure World (σ : Type) where
  engine : σ
  calls : List EngineCall
  stdout : List StdoutWrite

variable {σ : Type}

/-- The call `fmt.Printf(format, args...)`. -/
def World.Printf (w : World σ) (format : String) (args : List String) : World σ :=
  { w with stdout := w.stdout ++ [StdoutWrite.Printf format args] }

/-- The engine streams its progress text to each writer of the option. -/
def World.stream (w : World σ) (progressStreams : List Writer) (text : String) : World σ :=
  { w with stdout := w.stdout ++ progressStreams.map (fun _ => StdoutWrite.Progress text) }

/-- The call `auto.UpsertStackInlineSource(ctx, stackName, projectName, program)`. -/
def UpsertStackInlineSource (eng : Engine σ) (stackName projectName : String) (program : Program)
    (w : World σ) : Except GoError Stack × World σ :=
  let r := eng.UpsertStackInlineSource stackName projectName program w.engine
  (r.1, { w with engine := r.2,
                 calls := w.calls ++ [EngineCall.UpsertStackInlineSource stackName projectName program] })

/-- The call `s.SetAllConfig(ctx, config)`. -/
def Stack.SetAllConfig (eng : Engine σ) (s : Stack) (config : ConfigMap) (w : World σ) :
    Option GoError × World σ :=
  let r := eng.SetAllConfig s config w.engine
  (r.1, { w with engine := r.2, calls := w.calls ++ [EngineCall.SetAllConfig s config] })

/-- The call `s.Up(ctx, opts...)`. -/
def Stack.Up (eng : Engine σ) (s : Stack) (progressStreams : List Writer) (w : World σ) :
    Except GoError UpResult × World σ :=
  let r := eng.Up s w.engine
  (r.result, { (w.stream progressStreams r.progress) with
                 engine := r.state, calls := w.calls ++ [EngineCall.Up s progressStreams] })

/-- The call `s.Refresh(ctx, opts...)`. -/
def Stack.Refresh (eng : Engine σ) (s : Stack) (progressStreams : List Writer) (w : World σ) :
    Except GoError Unit × World σ :=
  let r := eng.Refresh s w.engine
  (r.result, { (w.stream progressStreams r.progress) with
                 engine := r.state, calls := w.calls ++ [EngineCall.Refresh s progressStreams] })

/-- The call `s.Destroy(ctx, opts...)`. -/
def Stack.Destroy (eng : Engine σ) (s : Stack) (progressStreams : List Writer) (w : World σ) :
    Except GoError Unit × World σ :=
  let r := eng.Destroy s w.engine
  (r.result, { (w.stream progressStreams r.progress) with
                 engine := r.state, calls := w.calls ++ [EngineCall.Destroy s progressStreams] })

/-- The call `s.Cancel(ctx)`. -/
def Stack.Cancel (eng : Engine σ) (s : Stack) (w : World σ) : Option GoError × World σ :=
  let r := eng.Cancel s w.engine
  (r.1, { w with engine := r.2, calls := w.calls ++ [EngineCall.Cancel s] })

/-! ## `BucketStackManager.Run` -/

/-- Run executes the specified action on the stack. The result is the pair
`(string, error)` the Go method returns, `none` being the nil error. -/
def BucketStackManager.Run (eng : Engine σ) (b : BucketStackManager) (action : String)
    (w : World σ) : Go (String × Option GoError) × World σ :=
  if action = "up" then
    let w := w.Printf "Running stack: %s\n" [b.Name]
    match Stack.Up eng b.Stack [Writer.Stdout] w with
    | (.error err, w) => (.ret ("", some err), w)
    | (.ok up, w) =>
      match (up.Outputs.get "websiteUrl").Value.assertString with
      | .ret url => (.ret ("Website URL: " ++ url, none), w)
      | .panicked v => (.panicked v, w)
  else if action = "refresh" then
    let w := w.Printf "Refreshing stack: %s\n" [b.Name]
    match Stack.Refresh eng b.Stack [] w with
    | (.error err, w) =>
      let w := w.Printf "Failed to refresh stack: %s\n" [b.Name]
      (.ret ("", some err), w)
    | (.ok _, w) => (.ret ("Stack refreshed successfully: " ++ b.Name, none), w)
  else if action = "destroy" then
    let w := w.Printf "Starting stack destroy: %s" [b.Name]
    let stdoutStreamer := [Writer.Stdout]
    match Stack.Destroy eng b.Stack stdoutStreamer w with
    | (.error err, w) =>
      let w := w.Printf "Failed to destroy stack: %s\n" [b.Name]
      (.ret ("", some err), w)
    | (.ok _, w) => (.ret ("Stack successfully destroyed: " ++ b.Name, none), w)
  else if action = "cancel" then
    let w := w.Printf "Starting stack cancel: %s\n" [b.Name]
    match Stack.Cancel eng b.Stack w with
    | (some err, w) => (.ret ("", some err), w)
    | (none, w) => (.ret ("Stack successfully canceled: " ++ b.Name, none), w)
  else
    (.ret ("", some ⟨"unknown action: " ++ action⟩), w)

/-! ## `NewBucketManager` -/

/-- The index document: the `fmt.Sprintf` of the HTML template with the custom
message in the place of its one `%s`. -/
def indexContent (customMessage : String) : String :=
  "<html><head>\n  <title>S3 Automation</title><meta charset=\"UTF-8\">\n </head>\n <body><p>Hello, thanks for being part of this!</p><p>Made with \u2764\uFE0F with <a href=\"https://pulumi.com\">Pulumi</a></p><p>Your custom message is = "
    ++ customMessage ++ " </p>\n </body></html>\n"

/-- The declaration of the site bucket. -/
def bucketDecl (args : BucketStackArgs) : ResourceDecl :=
  { typ := .Bucket, name := args.Spec.BucketName,
    args := [("Bucket", .String args.Spec.BucketName),
             ("Website", .Args [("IndexDocument", .String "index.html")])],
    dependsOn := [] }

/-- The declaration of the index object. -/
def objectDecl (args : BucketStackArgs) (siteBucket : Resource) : ResourceDecl :=
  { typ := .BucketObject, name := "index",
    args := [("Bucket", .Output siteBucket "ID"),
             ("Content", .String (indexContent args.Spec.CustomMessage)),
             ("Key", .String "index.html"),
             ("ContentType", .String "text/html; charset=utf-8")],
    dependsOn := [] }

/-- The declaration of the public access block. -/
def accessBlockDecl (siteBucket : Resource) : ResourceDecl :=
  { typ := .BucketPublicAccessBlock, name := "public-access-block",
    args := [("Bucket", .Output siteBucket "ID"),
             ("BlockPublicAcls", .Bool false)],
    dependsOn := [] }

/-- The policy document of the bucket policy. -/
def policyDocument (siteBucket : Resource) : Input :=
  .Any (.map [
    ("Version", .str "2012-10-17"),
    ("Statement", .slice [
      .map [
        ("Effect", .str "Allow"),
        ("Principal", .str "*"),
        ("Action", .slice [.str "s3:GetObject"]),
        ("Resource", .slice [.Sprintf "arn:aws:s3:::%s/*" [.Output siteBucket "ID"]])]])])

/-- The declaration of the bucket policy, with its `pulumi.DependsOn` option. -/
def policyDecl (siteBucket accessBlock : Resource) : ResourceDecl :=
  { typ := .BucketPolicy, name := "bucketPolicy",
    args := [("Bucket", .Output siteBucket "ID"),
             ("Policy", policyDocument siteBucket)],
    dependsOn := [accessBlock] }

/-- The inline program of `NewBucketManager`: the Pulumi code that defines the
S3 bucket. It closes over `args`. -/
def bucketDeployFunc (args : BucketStackArgs) : Program := fun ctx =>
  match ctx.newResource (bucketDecl args) with
  | (.error err, ctx) => (some err, ctx)
  | (.ok siteBucket, ctx) =>
    match ctx.newResource (objectDecl args siteBucket) with
    | (.error err, ctx) => (some err, ctx)
    | (.ok _, ctx) =>
      match ctx.newResource (accessBlockDecl siteBucket) with
      | (.error err, ctx) => (some err, ctx)
      | (.ok accessBlock, ctx) =>
        match ctx.newResource (policyDecl siteBucket accessBlock) with
        | (.error err, ctx) => (some err, ctx)
        | (.ok _, ctx) =>
          (none, ctx.Export "websiteUrl" (.Output siteBucket "WebsiteEndpoint"))

/-- The stack configuration `pulumiConfig`: a map literal of four key-value
pairs, two of them with keys formatted from the name of the stack. -/
def pulumiConfig (s : Stack) (spec : BucketStackSpec) : ConfigMap :=
  let m : ConfigMap := []
  let m := ConfigMap.assign m "aws:profile" { Value := "dev" }
  let m := ConfigMap.assign m "aws:region" { Value := "us-east-1" }
  let m := ConfigMap.assign m (s.name ++ ":customMessage") { Value := spec.CustomMessage }
  ConfigMap.assign m (s.name ++ ":bucketName") { Value := spec.BucketName }

/-- NewBucketManager creates a new bucket manager: `(*BucketStackManager, error)`
with exactly one of the two non-nil. -/
def NewBucketManager (eng : Engine σ) (args : BucketStackArgs) (w : World σ) :
    Except GoError BucketStackManager × World σ :=
  match UpsertStackInlineSource eng args.Stack.StackName args.Stack.ProjectName
      (bucketDeployFunc args) w with
  | (.error err, w) =>
    let w := w.Printf "Failed to set up a workspace: %v\n" [err.msg]
    (.error err, w)
  | (.ok s, w) =>
    let w := w.Printf "Created/Selected stack %q\n" [args.Stack.StackName]
    match s.SetAllConfig eng (pulumiConfig s args.Spec) w with
    | (some err, w) => (.error err, w)
    | (none, w) => (.ok { Name := args.Stack.StackName, Stack := s }, w)

/-! ## Decoding the request body

`json.Unmarshal` first checks the syntax of the whole text (`scan`, a
parameter: a syntax error or the value the text denotes) and then stores the
value into the `BucketStackSpec`.  The struct has no `json` tags (its `bson`
tags are not read by `encoding/json`), so an object key is matched against the
Go field names: an exact match first, else the first field equal to the key
under case folding. -/

/-- The fields of `BucketStackSpec`. -/
inductive SpecField where
  | BucketName
  | CustomMessage
deriving DecidableEq, Repr

/-- The name `encoding/json` knows a field by: the Go field name. -/
def SpecField.goName : SpecField → String
  | .BucketName => "BucketName"
  | .CustomMessage => "CustomMessage"

/-- The fields in declaration order. -/
def specFields : List SpecField := [.BucketName, .CustomMessage]

/-- Simple case folding of one character to a representative. On the folding
orbits that contain an ASCII letter it is exact: upper and lower case, the Kelvin
sign with `k` and the long s with `s`. -/
def foldRune (c : Char) : Char :=
  if c = '\u212A' then 'k' else if c = '\u017F' then 's' else c.toLower

/-- Equality of a key with an ASCII field name under simple case folding. -/
def equalFold (name key : String) : Bool :=
  name.data.map foldRune == key.data.map foldRune

/-- The field an object key is stored into, if any. -/
def findField (key : String) : Option SpecField :=
  match specFields.find? (fun f => f.goName = key) with
  | some f => some f
  | none => specFields.find? (fun f => equalFold f.goName key)

/-- How `encoding/json` names the kind of a value in a type error. -/
def Json.kind : Json → String
  | .null => "null"
  | .bool _ => "bool"
  | .num _ => "number"
  | .str _ => "string"
  | .arr _ => "array"
  | .obj _ => "object"

/-- The `UnmarshalTypeError` for a value that cannot go into a string field. -/
def fieldTypeError (f : SpecField) (v : Json) : GoError :=
  ⟨"json: cannot unmarshal " ++ v.kind ++ " into Go struct field BucketStackSpec."
    ++ f.goName ++ " of type string"⟩

/-- The `UnmarshalTypeError` for a value that cannot go into the struct. -/
def structTypeError (v : Json) : GoError :=
  ⟨"json: cannot unmarshal " ++ v.kind ++ " into Go value of type main.BucketStackSpec"⟩

/-- Assignment to one field. -/
def BucketStackSpec.setField (spec : BucketStackSpec) (f : SpecField) (s : String) :
    BucketStackSpec :=
  match f with
  | .BucketName => { spec with BucketName := s }
  | .CustomMessage => { spec with CustomMessage := s }

/-- The zero value of `BucketStackSpec`, which `var body BucketStackSpec` declares. -/
def zeroSpec : BucketStackSpec := { BucketName := "", CustomMessage := "" }

/-- One member of the object: a key without a field is skipped, a string is
stored, `null` leaves the field as it is, any other value is a type error, of
which the decoder keeps the first and goes on. -/
def decodeMember (acc : BucketStackSpec × Option GoError) (member : String × Json) :
    BucketStackSpec × Option GoError :=
  match findField member.1 with
  | none => acc
  | some f =>
    match member.2 with
    | .str s => (acc.1.setField f s, acc.2)
    | .null => acc
    | v => (acc.1, match acc.2 with | some e => some e | none => some (fieldTypeError f v))

/-- The call `json.Unmarshal(data, &body)`: the error, or the struct after the
call. -/
def jsonUnmarshal (scan : List UInt8 → Except GoError Json) (data : List UInt8)
    (body : BucketStackSpec) : Except GoError BucketStackSpec :=
  match scan data with
  | .error err => .error err
  | .ok .null => .ok body
  | .ok (.obj members) =>
    match members.foldl decodeMember (body, none) with
    | (spec, none) => .ok spec
    | (_, some err) => .error err
  | .ok v => .error (structTypeError v)

/-! ## `BucketHandler` and the routes of `main` -/

/-- The part of the request the handler reads: the result of
`io.ReadAll(c.Request.Body)`. -/
structure Request where
  Body : Except GoError (List UInt8)

/-- A response written with `c.JSON(code, gin.H{...})`. -/
structure Response where
  code : Nat
  obj : List (String × String)
deriving DecidableEq, Repr

/-- BucketHandler handles bucket related requests. Every path of the handler
that returns writes one response and stops; a panic leaves the handler before
any response is written. -/
def BucketHandler (eng : Engine σ) (scan : List UInt8 → Except GoError Json) (command : String)
    (req : Request) (w : World σ) : Go Response × World σ :=
  match req.Body with
  | .error err => (.ret ⟨500, [("error", err.msg)]⟩, w)
  | .ok jsonData =>
    match jsonUnmarshal scan jsonData zeroSpec with
    | .error err => (.ret ⟨500, [("error", err.msg)]⟩, w)
    | .ok body =>
      match NewBucketManager eng
          { Stack := { ProjectName := "pulumi_api_rest", StackName := "dev" }, Spec := body } w with
      | (.error err, w) => (.ret ⟨500, [("error", err.msg)]⟩, w)
      | (.ok stack, w) =>
        match stack.Run eng command w with
        | (.panicked v, w) => (.panicked v, w)
        | (.ret (_, some err), w) => (.ret ⟨500, [("error", err.msg)]⟩, w)
        | (.ret (output, none), w) => (.ret ⟨200, [("message", output)]⟩, w)

/-- The routes `main` defines on the group `/bucket`: method, path and the
command of the handler. -/
def routes : List (String × String × String) :=
  [("POST", "/bucket" ++ "/", "up"),
   ("DELETE", "/bucket" ++ "/", "destroy"),
   ("POST", "/bucket" ++ "/refresh", "refresh"),
   ("POST", "/bucket" ++ "/cancel", "cancel")]

/-- The router on a request: the handler of the matching route, if any. -/
def serve (eng : Engine σ) (scan : List UInt8 → Except GoError Json) (method path : String)
    (req : Request) (w : World σ) : Option (Go Response × World σ) :=
  match routes.find? (fun r => r.1 = method ∧ r.2.1 = path) with
  | some r => some (BucketHandler eng scan r.2.2 req w)
  | none => none

/-! ## A fake engine

A provisioning engine that answers every call from a fixed table; the
concrete inputs of the development are built on it. -/

/-- The results a fake engine is configured to give, the same at every call. -/
structure FakeEngine where
  upsert : Except GoError Stack
  setAllConfig : Option GoError
  up : Except GoError UpResult
  refresh : Except GoError Unit
  destroy : Except GoError Unit
  cancel : Option GoError
  progress : String

/-- The engine of a fake configuration; its state counts the calls received. -/
def FakeEngine.engine (f : FakeEngine) : Engine Nat where
  UpsertStackInlineSource := fun _ _ _ n => (f.upsert, n + 1)
  SetAllConfig := fun _ _ n => (f.setAllConfig, n + 1)
  Up := fun _ n => ⟨f.up, f.progress, n + 1⟩
  Refresh := fun _ n => ⟨f.refresh, f.progress, n + 1⟩
  Destroy := fun _ n => ⟨f.destroy, f.progress, n + 1⟩
  Cancel := fun _ n => (f.cancel, n + 1)

/-- A fake engine on which every call succeeds, the upserted stack is `dev` and
`Up` gives the outputs. -/
def fakeOk (outputs : OutputMap) : FakeEngine where
  upsert := .ok ⟨"dev"⟩
  setAllConfig := none
  up := .ok ⟨"", "", outputs⟩
  refresh := .ok ()
  destroy := .ok ()
  cancel := none
  progress := "Updating (dev)\n"

/-- The world before the first request: no call made, nothing written. -/
def freshWorld : World Nat := ⟨0, [], []⟩

/-- The manager the handler works with on the fake engine. -/
def devManager : BucketStackManager := { Name := "dev", Stack := ⟨"dev"⟩ }

/-- The engine that differs from `eng` only in the progress text its verbs emit. -/
def Engine.mapProgress (eng : Engine σ) (f : String → String) : Engine σ :=
  { eng with
    Up := fun s st => { eng.Up s st with progress := f (eng.Up s st).progress }
    Refresh := fun s st => { eng.Refresh s st with progress := f (eng.Refresh s st).progress }
    Destroy := fun s st => { eng.Destroy s st with progress := f (eng.Destroy s st).progress } }

/-- The call by which `NewBucketManager` upserts the stack of `args`. -/
def upsertCall (args : BucketStackArgs) : EngineCall :=
  EngineCall.UpsertStackInlineSource args.Stack.StackName args.Stack.ProjectName
    (bucketDeployFunc args)

/-- The result of the upsert `NewBucketManager` makes from the world `w`. -/
def upsertResult (eng : Engine σ) (args : BucketStackArgs) (w : World σ) :
    Except GoError Stack × σ :=
  eng.UpsertStackInlineSource args.Stack.StackName args.Stack.ProjectName
    (bucketDeployFunc args) w.engine

/-- The stack identity the handler works with. -/
def devStack : StackArgs := { ProjectName := "pulumi_api_rest", StackName := "dev" }

/-- A fake engine whose upsert fails. -/
def fakeUpsertFails : FakeEngine := { fakeOk [] with upsert := .error ⟨"failed to create stack"⟩ }

/-- A fake engine whose `Up` fails. -/
def fakeUpFails : FakeEngine :=
  { fakeOk [] with up := .error ⟨"failed to run update: exit status 255"⟩ }

/-- A fake engine whose `SetAllConfig` fails. -/
def fakeConfigFails : FakeEngine := { fakeOk [] with setAllConfig := some ⟨"unable to set config"⟩ }

/-- The bytes of an ASCII text. -/
def asciiBytes (text : String) : List UInt8 := text.data.map (fun c => c.toNat.toUInt8)

/-- The request body of the dispatch example. -/
def myBucketBody : List UInt8 :=
  asciiBytes "\x7b\"bucketName\":\"my-bucket\",\"customMessage\":\"hi\"\x7d"

/-- A request body with an empty bucket name. -/
def emptyNameBody : List UInt8 :=
  asciiBytes "\x7b\"bucketName\":\"\",\"customMessage\":\"hi\"\x7d"

/-- A request body that is not JSON. -/
def notJsonBody : List UInt8 := asciiBytes "not json"

/-- The syntax layer of `encoding/json` on the bodies above; any other text is
taken as the one that is not JSON. -/
def fakeScan (data : List UInt8) : Except GoError Json :=
  if data = myBucketBody then
    .ok (.obj [("bucketName", .str "my-bucket"), ("customMessage", .str "hi")])
  else if data = emptyNameBody then
    .ok (.obj [("bucketName", .str ""), ("customMessage", .str "hi")])
  else
    .error ⟨"invalid character 'o' in literal null (expecting 'u')"⟩

/-- The endpoint of the dispatch example. -/
def myBucketEndpoint : String := "my-bucket.s3-website-us-east-1.amazonaws.com"

/-- The outputs of a stack that exports the endpoint of the dispatch example. -/
def myBucketOutputs : OutputMap := [("websiteUrl", ⟨.str myBucketEndpoint, false⟩)]

/-! ## The resource graph of the program -/

/-- The site bucket as the later declarations refer to it. -/
def siteBucketOf (args : BucketStackArgs) : Resource := (bucketDecl args).resource

/-- The public access block as the policy refers to it. -/
def accessBlockOf (args : BucketStackArgs) : Resource :=
  (accessBlockDecl (siteBucketOf args)).resource

/-- The bucket policy as a resource. -/
def policyOf (args : BucketStackArgs) : Resource :=
  (policyDecl (siteBucketOf args) (accessBlockOf args)).resource

/-- The resource graph of the program: its four declarations in source order. -/
def declaredGraph (args : BucketStackArgs) : List ResourceDecl :=
  [bucketDecl args, objectDecl args (siteBucketOf args), accessBlockDecl (siteBucketOf args),
   policyDecl (siteBucketOf args) (accessBlockOf args)]

/-- An application order, the resources in the order the engine applies them,
respects the dependency edges of a graph when every applied resource comes
after each resource its declaration depends on. -/
def respectsDependencies (graph : List ResourceDecl) (order : List Resource) : Prop :=
  ∀ d ∈ graph, d.resource ∈ order →
    ∀ r ∈ d.dependsOn, order.indexOf r < order.indexOf d.resource

instance (graph : List ResourceDecl) (order : List Resource) :
    Decidable (respectsDependencies graph order) := by
  unfold respectsDependencies
  infer_instance

/-- An empty program context whose SDK refuses a resource with an empty name, as
`ctx.RegisterResource` does, and accepts every other declaration. -/
def sdkContext : Context :=
  { register := fun _ d =>
      if d.name = "" then
        some ⟨"resource name argument (for URN creation) cannot be empty"⟩
      else none,
    resources := [], exports := [] }

/-! ## Theorems about `BucketStackManager.Run` -/

/-- Run on an action that is none of the four verbs: the default case. -/
theorem Run_default (eng : Engine σ) (b : BucketStackManager) (action : String) (w : World σ)
    (h1 : action ≠ "up") (h2 : action ≠ "refresh") (h3 : action ≠ "destroy")
    (h4 : action ≠ "cancel") :
    b.Run eng action w = (.ret ("", some ⟨"unknown action: " ++ action⟩), w) := by
  simp [BucketStackManager.Run, h1, h2, h3, h4]

/-- C1: for an action string other than "up", "refresh", "destroy" and "cancel",
Run returns the empty message with the error "unknown action: " followed by the
action, and leaves the world as it was: no call reaches the engine. -/
theorem Run_unknown_action (eng : Engine σ) (b : BucketStackManager) (action : String)
    (w : World σ) (h : action ∉ ["up", "refresh", "destroy", "cancel"]) :
    b.Run eng action w = (.ret ("", some ⟨"unknown action: " ++ action⟩), w) := by
  simp only [List.mem_cons, List.mem_singleton, List.not_mem_nil, or_false, not_or] at h
  exact Run_default eng b action w h.1 h.2.1 h.2.2.1 h.2.2.2

/-- C1 at the action "restart" on the fake engine. -/
theorem Run_unknown_action_witness :
    "restart" ∉ ["up", "refresh", "destroy", "cancel"] ∧
    devManager.Run (fakeOk []).engine "restart" freshWorld
      = (.ret ("", some ⟨"unknown action: restart"⟩), freshWorld) :=
  ⟨by decide, Run_unknown_action (fakeOk []).engine devManager "restart" freshWorld (by decide)⟩

/-- Run on "up", written out: one `Printf`, one `Up` with standard output as its
progress stream, then the type assertion on the "websiteUrl" output. -/
theorem Run_up (eng : Engine σ) (b : BucketStackManager) (w : World σ) :
    b.Run eng "up" w =
      (match (eng.Up b.Stack w.engine).result with
        | .error err => .ret ("", some err)
        | .ok up =>
          match (up.Outputs.get "websiteUrl").Value.assertString with
          | .ret url => .ret ("Website URL: " ++ url, none)
          | .panicked v => .panicked v,
       { engine := (eng.Up b.Stack w.engine).state,
         calls := w.calls ++ [EngineCall.Up b.Stack [Writer.Stdout]],
         stdout := w.stdout ++ [StdoutWrite.Printf "Running stack: %s\n" [b.Name],
                                StdoutWrite.Progress (eng.Up b.Stack w.engine).progress] }) := by
  simp only [BucketStackManager.Run, Stack.Up, World.Printf, World.stream, if_true]
  cases h : (eng.Up b.Stack w.engine).result with
  | error err => simp
  | ok up => cases h2 : (up.Outputs.get "websiteUrl").Value.assertString <;> simp [h2]

/-- Run on "refresh", written out: `Refresh` is called without options. -/
theorem Run_refresh (eng : Engine σ) (b : BucketStackManager) (w : World σ) :
    b.Run eng "refresh" w =
      (match (eng.Refresh b.Stack w.engine).result with
        | .error err => .ret ("", some err)
        | .ok _ => .ret ("Stack refreshed successfully: " ++ b.Name, none),
       { engine := (eng.Refresh b.Stack w.engine).state,
         calls := w.calls ++ [EngineCall.Refresh b.Stack []],
         stdout := w.stdout ++ StdoutWrite.Printf "Refreshing stack: %s\n" [b.Name] ::
           match (eng.Refresh b.Stack w.engine).result with
           | .error _ => [StdoutWrite.Printf "Failed to refresh stack: %s\n" [b.Name]]
           | .ok _ => [] }) := by
  simp only [BucketStackManager.Run, Stack.Refresh, World.Printf, World.stream]
  cases h : (eng.Refresh b.Stack w.engine).result <;> simp

/-- Run on "destroy", written out: `Destroy` is called with standard output as
its progress stream. -/
theorem Run_destroy (eng : Engine σ) (b : BucketStackManager) (w : World σ) :
    b.Run eng "destroy" w =
      (match (eng.Destroy b.Stack w.engine).result with
        | .error err => .ret ("", some err)
        | .ok _ => .ret ("Stack successfully destroyed: " ++ b.Name, none),
       { engine := (eng.Destroy b.Stack w.engine).state,
         calls := w.calls ++ [EngineCall.Destroy b.Stack [Writer.Stdout]],
         stdout := w.stdout ++ StdoutWrite.Printf "Starting stack destroy: %s" [b.Name] ::
           StdoutWrite.Progress (eng.Destroy b.Stack w.engine).progress ::
           match (eng.Destroy b.Stack w.engine).result with
           | .error _ => [StdoutWrite.Printf "Failed to destroy stack: %s\n" [b.Name]]
           | .ok _ => [] }) := by
  simp only [BucketStackManager.Run, Stack.Destroy, World.Printf, World.stream]
  cases h : (eng.Destroy b.Stack w.engine).result <;> simp

/-- Run on "cancel", written out: `Cancel` takes no progress stream. -/
theorem Run_cancel (eng : Engine σ) (b : BucketStackManager) (w : World σ) :
    b.Run eng "cancel" w =
      (match (eng.Cancel b.Stack w.engine).1 with
        | some err => .ret ("", some err)
        | none => .ret ("Stack successfully canceled: " ++ b.Name, none),
       { engine := (eng.Cancel b.Stack w.engine).2,
         calls := w.calls ++ [EngineCall.Cancel b.Stack],
         stdout := w.stdout ++ [StdoutWrite.Printf "Starting stack cancel: %s\n" [b.Name]] }) := by
  simp only [BucketStackManager.Run, Stack.Cancel, World.Printf]
  cases h : (eng.Cancel b.Stack w.engine).1 <;> simp

/-- Run on "up" panics whenever `Up` succeeds with a "websiteUrl" output that is
not a string, the missing entry included. -/
theorem Run_up_panics_of_not_string (eng : Engine σ) (b : BucketStackManager) (w : World σ)
    (up : UpResult) (hup : (eng.Up b.Stack w.engine).result = .ok up)
    (hno : ∀ s, (up.Outputs.get "websiteUrl").Value ≠ .str s) :
    ∃ v, (b.Run eng "up" w).1 = .panicked v := by
  rw [Run_up, hup]
  dsimp only
  cases hv : (up.Outputs.get "websiteUrl").Value with
  | str s => exact absurd hv (hno s)
  | null => exact ⟨_, rfl⟩
  | bool b => exact ⟨_, rfl⟩
  | num n => exact ⟨_, rfl⟩
  | arr a => exact ⟨_, rfl⟩
  | obj o => exact ⟨_, rfl⟩

/-- A message returned by Run on "up" with a nil error always carries the
endpoint: the "websiteUrl" output was a string. -/
theorem Run_up_message_has_endpoint (eng : Engine σ) (b : BucketStackManager) (w : World σ)
    (msg : String) (h : (b.Run eng "up" w).1 = .ret (msg, none)) :
    ∃ up endpoint, (eng.Up b.Stack w.engine).result = .ok up ∧
      (up.Outputs.get "websiteUrl").Value = .str endpoint ∧
      msg = "Website URL: " ++ endpoint := by
  rw [Run_up] at h
  cases hup : (eng.Up b.Stack w.engine).result with
  | error e => simp [hup] at h
  | ok up =>
    simp only [hup] at h
    cases hv : (up.Outputs.get "websiteUrl").Value with
    | str s =>
      simp only [hv, Json.assertString, Go.ret.injEq, Prod.mk.injEq, and_true] at h
      exact ⟨up, s, rfl, hv, h.symm⟩
    | null => simp [hv, Json.assertString] at h
    | bool x => simp [hv, Json.assertString] at h
    | num x => simp [hv, Json.assertString] at h
    | arr x => simp [hv, Json.assertString] at h
    | obj x => simp [hv, Json.assertString] at h

/-- C3: Run on "up" against an engine whose `Up` succeeds does not return an
error when the outputs have no "websiteUrl" entry, nor when the entry is a
number: the type assertion panics. -/
theorem Run_up_missing_websiteUrl_panics :
    (devManager.Run (fakeOk []).engine "up" freshWorld).1
      = .panicked "interface conversion: interface {} is nil, not string" ∧
    (devManager.Run (fakeOk [("websiteUrl", ⟨.num "80", false⟩)]).engine "up" freshWorld).1
      = .panicked "interface conversion: interface {} is float64, not string" :=
  ⟨rfl, rfl⟩

/-! ## Theorems about `NewBucketManager` -/

theorem customMessage_key_ne_profile (n : String) : ¬ (n ++ ":customMessage" = "aws:profile") := by
  intro h
  have h1 := congrArg (fun s => s.data.reverse) h
  simp [String.data_append] at h1

theorem customMessage_key_ne_region (n : String) : ¬ (n ++ ":customMessage" = "aws:region") := by
  intro h
  have h1 := congrArg (fun s => s.data.reverse) h
  simp [String.data_append] at h1

theorem bucketName_key_ne_profile (n : String) : ¬ (n ++ ":bucketName" = "aws:profile") := by
  intro h
  have h1 := congrArg (fun s => s.data.reverse) h
  simp [String.data_append] at h1

theorem bucketName_key_ne_region (n : String) : ¬ (n ++ ":bucketName" = "aws:region") := by
  intro h
  have h1 := congrArg (fun s => s.data.reverse) h
  simp [String.data_append] at h1

theorem customMessage_key_ne_bucketName (n : String) :
    ¬ (n ++ ":customMessage" = n ++ ":bucketName") := by
  intro h
  have h1 := congrArg (fun s => s.data) h
  simp [String.data_append] at h1

/-- The four keys of the map literal are distinct whatever the name of the stack,
so the map has the four entries of the literal. -/
theorem pulumiConfig_eq (s : Stack) (spec : BucketStackSpec) :
    pulumiConfig s spec =
      [("aws:profile", ⟨"dev", false⟩), ("aws:region", ⟨"us-east-1", false⟩),
       (s.name ++ ":customMessage", ⟨spec.CustomMessage, false⟩),
       (s.name ++ ":bucketName", ⟨spec.BucketName, false⟩)] := by
  simp [pulumiConfig, ConfigMap.assign, Ne.symm (customMessage_key_ne_profile s.name),
    Ne.symm (customMessage_key_ne_region _), Ne.symm (bucketName_key_ne_profile _),
    Ne.symm (bucketName_key_ne_region _), customMessage_key_ne_bucketName]

/-- What `pulumiConfig` holds: four entries, one under each of the four keys. -/
theorem pulumiConfig_entries (s : Stack) (spec : BucketStackSpec) :
    (pulumiConfig s spec).length = 4 ∧
    ((pulumiConfig s spec).map Prod.fst).Nodup ∧
    ConfigMap.lookup (pulumiConfig s spec) "aws:profile" = some ⟨"dev", false⟩ ∧
    ConfigMap.lookup (pulumiConfig s spec) "aws:region" = some ⟨"us-east-1", false⟩ ∧
    ConfigMap.lookup (pulumiConfig s spec) (s.name ++ ":customMessage")
      = some ⟨spec.CustomMessage, false⟩ ∧
    ConfigMap.lookup (pulumiConfig s spec) (s.name ++ ":bucketName")
      = some ⟨spec.BucketName, false⟩ := by
  rw [pulumiConfig_eq]
  simp [ConfigMap.lookup, List.find?, Ne.symm (customMessage_key_ne_profile s.name),
    Ne.symm (customMessage_key_ne_region _), Ne.symm (bucketName_key_ne_profile _),
    Ne.symm (bucketName_key_ne_region _), customMessage_key_ne_bucketName,
    customMessage_key_ne_profile, customMessage_key_ne_region, bucketName_key_ne_profile,
    bucketName_key_ne_region, Ne.symm (customMessage_key_ne_bucketName _)]

/-- `NewBucketManager`, written out by the results of its two engine calls. -/
theorem NewBucketManager_eq (eng : Engine σ) (args : BucketStackArgs) (w : World σ) :
    NewBucketManager eng args w =
      match (upsertResult eng args w).1 with
      | .error err =>
        (.error err,
         { engine := (upsertResult eng args w).2,
           calls := w.calls ++ [upsertCall args],
           stdout := w.stdout ++ [StdoutWrite.Printf "Failed to set up a workspace: %v\n" [err.msg]] })
      | .ok s =>
        (match (eng.SetAllConfig s (pulumiConfig s args.Spec) (upsertResult eng args w).2).1 with
          | some err => .error err
          | none => .ok { Name := args.Stack.StackName, Stack := s },
         { engine := (eng.SetAllConfig s (pulumiConfig s args.Spec) (upsertResult eng args w).2).2,
           calls := w.calls ++ [upsertCall args, EngineCall.SetAllConfig s (pulumiConfig s args.Spec)],
           stdout := w.stdout ++ [StdoutWrite.Printf "Created/Selected stack %q\n" [args.Stack.StackName]] }) := by
  simp only [NewBucketManager, UpsertStackInlineSource, Stack.SetAllConfig, World.Printf,
    upsertResult, upsertCall]
  cases h : (eng.UpsertStackInlineSource args.Stack.StackName args.Stack.ProjectName
      (bucketDeployFunc args) w.engine).1 with
  | error err => simp [h]
  | ok s =>
    simp only [h]
    cases h2 : (eng.SetAllConfig s (pulumiConfig s args.Spec)
      (eng.UpsertStackInlineSource args.Stack.StackName args.Stack.ProjectName
        (bucketDeployFunc args) w.engine).2).1 <;> simp [h2]

/-- C8: NewBucketManager returns a manager only when the upsert succeeded and
SetAllConfig, called on the upserted stack with the four-entry mapping
("aws:profile" = "dev", "aws:region" = "us-east-1", the custom message and the
bucket name under keys qualified by the name of the upserted stack), succeeded
too; a failure of either is returned as the error, without a manager, and no
lifecycle verb is called in NewBucketManager. -/
theorem NewBucketManager_applies_config (eng : Engine σ) (args : BucketStackArgs)
    (w : World σ) :
    (∀ e, (upsertResult eng args w).1 = .error e →
      (NewBucketManager eng args w).1 = .error e ∧
      (NewBucketManager eng args w).2.calls = w.calls ++ [upsertCall args]) ∧
    (∀ s, (upsertResult eng args w).1 = .ok s →
      (NewBucketManager eng args w).2.calls
        = w.calls ++ [upsertCall args, EngineCall.SetAllConfig s (pulumiConfig s args.Spec)] ∧
      pulumiConfig s args.Spec =
        [("aws:profile", ⟨"dev", false⟩), ("aws:region", ⟨"us-east-1", false⟩),
         (s.name ++ ":customMessage", ⟨args.Spec.CustomMessage, false⟩),
         (s.name ++ ":bucketName", ⟨args.Spec.BucketName, false⟩)] ∧
      ((pulumiConfig s args.Spec).map Prod.fst).Nodup ∧
      (∀ e, (eng.SetAllConfig s (pulumiConfig s args.Spec) (upsertResult eng args w).2).1 = some e →
        (NewBucketManager eng args w).1 = .error e) ∧
      ((eng.SetAllConfig s (pulumiConfig s args.Spec) (upsertResult eng args w).2).1 = none →
        (NewBucketManager eng args w).1 = .ok { Name := args.Stack.StackName, Stack := s })) ∧
    (∀ mgr, (NewBucketManager eng args w).1 = .ok mgr →
      ∃ s, (upsertResult eng args w).1 = .ok s ∧
        (eng.SetAllConfig s (pulumiConfig s args.Spec) (upsertResult eng args w).2).1 = none ∧
        mgr = { Name := args.Stack.StackName, Stack := s }) ∧
    (∃ new, (NewBucketManager eng args w).2.calls = w.calls ++ new ∧
      ∀ c ∈ new, c.isVerb = false) := by
  rw [NewBucketManager_eq]
  refine ⟨?_, ?_, ?_, ?_⟩
  · intro e he
    simp [he]
  · intro s hs
    refine ⟨by simp [hs], pulumiConfig_eq _ _, (pulumiConfig_entries _ _).2.1, ?_, ?_⟩
    · intro e he
      simp [hs, he]
    · intro hn
      simp [hs, hn]
  · intro mgr hm
    cases hs : (upsertResult eng args w).1 with
    | error e => simp [hs] at hm
    | ok s =>
      refine ⟨s, rfl, ?_⟩
      simp only [hs] at hm
      cases hc : (eng.SetAllConfig s (pulumiConfig s args.Spec) (upsertResult eng args w).2).1 with
      | some e => simp [hc] at hm
      | none =>
        simp only [hc] at hm
        exact ⟨rfl, (Except.ok.inj hm).symm⟩
  · cases hs : (upsertResult eng args w).1 with
    | error e => exact ⟨[upsertCall args], by simp, by simp [upsertCall, EngineCall.isVerb]⟩
    | ok s =>
      exact ⟨[upsertCall args, EngineCall.SetAllConfig s (pulumiConfig s args.Spec)], by simp,
        by simp [upsertCall, EngineCall.isVerb]⟩

/-- C8 on the fake engines: the manager of stack "dev" when both calls succeed,
the error of the upsert and the error of SetAllConfig when they fail. -/
theorem NewBucketManager_applies_config_witness :
    (NewBucketManager (fakeOk []).engine ⟨devStack, ⟨"my-bucket", "hi"⟩⟩ freshWorld).1
      = .ok { Name := "dev", Stack := ⟨"dev"⟩ } ∧
    (NewBucketManager fakeUpsertFails.engine ⟨devStack, ⟨"my-bucket", "hi"⟩⟩ freshWorld).1
      = .error ⟨"failed to create stack"⟩ ∧
    (NewBucketManager fakeConfigFails.engine ⟨devStack, ⟨"my-bucket", "hi"⟩⟩ freshWorld).1
      = .error ⟨"unable to set config"⟩ :=
  ⟨((NewBucketManager_applies_config (fakeOk []).engine ⟨devStack, ⟨"my-bucket", "hi"⟩⟩
      freshWorld).2.1 ⟨"dev"⟩ rfl).2.2.2.2 rfl,
   ((NewBucketManager_applies_config fakeUpsertFails.engine ⟨devStack, ⟨"my-bucket", "hi"⟩⟩
      freshWorld).1 ⟨"failed to create stack"⟩ rfl).1,
   ((NewBucketManager_applies_config fakeConfigFails.engine ⟨devStack, ⟨"my-bucket", "hi"⟩⟩
      freshWorld).2.1 ⟨"dev"⟩ rfl).2.2.2.1 ⟨"unable to set config"⟩ rfl⟩

/-! ## Theorems about the request body -/

theorem findField_bucketName : findField "bucketName" = some SpecField.BucketName := by decide

theorem findField_customMessage : findField "customMessage" = some SpecField.CustomMessage := by
  decide

/-- The documented keys bind: `bucketName` and `customMessage` are equal to the
Go field names under case folding. -/
theorem jsonUnmarshal_documented_keys (scan : List UInt8 → Except GoError Json)
    (data : List UInt8) (b m : String)
    (hscan : scan data = .ok (.obj [("bucketName", .str b), ("customMessage", .str m)])) :
    jsonUnmarshal scan data zeroSpec = .ok { BucketName := b, CustomMessage := m } := by
  simp [jsonUnmarshal, hscan, decodeMember, findField_bucketName, findField_customMessage,
    BucketStackSpec.setField, zeroSpec]

/-! ## Theorems about `BucketHandler` -/

/-- The handler after a decoded body and a resolved manager: the response is
made from what Run returns. -/
theorem BucketHandler_of_manager (eng : Engine σ) (scan : List UInt8 → Except GoError Json)
    (command : String) (data : List UInt8) (w w1 : World σ) (body : BucketStackSpec)
    (mgr : BucketStackManager) (hd : jsonUnmarshal scan data zeroSpec = .ok body)
    (hm : NewBucketManager eng ⟨devStack, body⟩ w = (.ok mgr, w1)) :
    BucketHandler eng scan command ⟨.ok data⟩ w =
      (match (mgr.Run eng command w1).1 with
        | .panicked v => .panicked v
        | .ret (_, some err) => .ret ⟨500, [("error", err.msg)]⟩
        | .ret (output, none) => .ret ⟨200, [("message", output)]⟩,
       (mgr.Run eng command w1).2) := by
  simp only [BucketHandler, hd]
  rw [show ({ Stack := { ProjectName := "pulumi_api_rest", StackName := "dev" }, Spec := body }
    : BucketStackArgs) = ⟨devStack, body⟩ from rfl, hm]
  rcases hr : mgr.Run eng command w1 with ⟨r, w2⟩
  rcases r with ⟨out, _ | err⟩ | v <;> simp [hr]

/-- The handler when NewBucketManager fails: status 500 with the description of
that error, and Run is not called. -/
theorem BucketHandler_of_manager_error (eng : Engine σ)
    (scan : List UInt8 → Except GoError Json) (command : String) (data : List UInt8)
    (w w1 : World σ) (body : BucketStackSpec) (e : GoError)
    (hd : jsonUnmarshal scan data zeroSpec = .ok body)
    (hm : NewBucketManager eng ⟨devStack, body⟩ w = (.error e, w1)) :
    BucketHandler eng scan command ⟨.ok data⟩ w = (.ret ⟨500, [("error", e.msg)]⟩, w1) := by
  simp only [BucketHandler, hd]
  rw [show ({ Stack := { ProjectName := "pulumi_api_rest", StackName := "dev" }, Spec := body }
    : BucketStackArgs) = ⟨devStack, body⟩ from rfl, hm]

/-- Run makes at most one call to the engine, after those made before. -/
theorem Run_calls (eng : Engine σ) (b : BucketStackManager) (action : String) (w : World σ) :
    ∃ new, (b.Run eng action w).2.calls = w.calls ++ new ∧ new.length ≤ 1 := by
  by_cases h1 : action = "up"
  · subst h1; rw [Run_up]; exact ⟨[_], rfl, le_refl _⟩
  by_cases h2 : action = "refresh"
  · subst h2; rw [Run_refresh]; exact ⟨[_], rfl, le_refl _⟩
  by_cases h3 : action = "destroy"
  · subst h3; rw [Run_destroy]; exact ⟨[_], rfl, le_refl _⟩
  by_cases h4 : action = "cancel"
  · subst h4; rw [Run_cancel]; exact ⟨[_], rfl, le_refl _⟩
  · rw [Run_default eng b action w h1 h2 h3 h4]
    exact ⟨[], by simp, by simp⟩

/-- The first call of NewBucketManager is the upsert of the stack of `args`. -/
theorem NewBucketManager_calls (eng : Engine σ) (args : BucketStackArgs) (w : World σ) :
    ∃ rest, (NewBucketManager eng args w).2.calls = w.calls ++ upsertCall args :: rest := by
  rw [NewBucketManager_eq]
  cases hu : (upsertResult eng args w).1 with
  | error e => exact ⟨[], by simp⟩
  | ok s => exact ⟨[EngineCall.SetAllConfig s (pulumiConfig s args.Spec)], by simp⟩

/-- A decoded body is handed to NewBucketManager: the first call of the handler
is the upsert of stack "dev" with the program of that body. -/
theorem BucketHandler_calls (eng : Engine σ) (scan : List UInt8 → Except GoError Json)
    (command : String) (data : List UInt8) (w : World σ) (body : BucketStackSpec)
    (hd : jsonUnmarshal scan data zeroSpec = .ok body) :
    ∃ rest, (BucketHandler eng scan command ⟨.ok data⟩ w).2.calls
      = w.calls ++ upsertCall ⟨devStack, body⟩ :: rest := by
  obtain ⟨rest, hrest⟩ := NewBucketManager_calls eng ⟨devStack, body⟩ w
  rcases hm : NewBucketManager eng ⟨devStack, body⟩ w with ⟨r, w1⟩
  rw [hm] at hrest
  cases r with
  | error err =>
    rw [BucketHandler_of_manager_error eng scan command data w w1 _ err hd hm]
    exact ⟨rest, hrest⟩
  | ok mgr =>
    rw [BucketHandler_of_manager eng scan command data w w1 _ mgr hd hm]
    obtain ⟨new, hnew, -⟩ := Run_calls eng mgr command w1
    refine ⟨rest ++ new, ?_⟩
    simp only [hnew]
    simp only [] at hrest
    rw [hrest]
    simp


/-- The stages of the handler when Run returns: the response is 200 with Run's
message when every stage succeeds, and otherwise 500 with the description of
the error of the first stage that failed, the later stages not being run. -/
theorem BucketHandler_first_failure (eng : Engine σ) (scan : List UInt8 → Except GoError Json)
    (command : String) (w : World σ) :
    (∀ e, BucketHandler eng scan command ⟨.error e⟩ w = (.ret ⟨500, [("error", e.msg)]⟩, w)) ∧
    (∀ data e, jsonUnmarshal scan data zeroSpec = .error e →
      BucketHandler eng scan command ⟨.ok data⟩ w = (.ret ⟨500, [("error", e.msg)]⟩, w)) ∧
    (∀ data body e, jsonUnmarshal scan data zeroSpec = .ok body →
      (NewBucketManager eng ⟨devStack, body⟩ w).1 = .error e →
      BucketHandler eng scan command ⟨.ok data⟩ w
        = (.ret ⟨500, [("error", e.msg)]⟩, (NewBucketManager eng ⟨devStack, body⟩ w).2)) ∧
    (∀ data body mgr msg e, jsonUnmarshal scan data zeroSpec = .ok body →
      (NewBucketManager eng ⟨devStack, body⟩ w).1 = .ok mgr →
      (mgr.Run eng command (NewBucketManager eng ⟨devStack, body⟩ w).2).1 = .ret (msg, some e) →
      (BucketHandler eng scan command ⟨.ok data⟩ w).1 = .ret ⟨500, [("error", e.msg)]⟩) ∧
    (∀ data body mgr output, jsonUnmarshal scan data zeroSpec = .ok body →
      (NewBucketManager eng ⟨devStack, body⟩ w).1 = .ok mgr →
      (mgr.Run eng command (NewBucketManager eng ⟨devStack, body⟩ w).2).1 = .ret (output, none) →
      (BucketHandler eng scan command ⟨.ok data⟩ w).1 = .ret ⟨200, [("message", output)]⟩) := by
  refine ⟨fun e => rfl, ?_, ?_, ?_, ?_⟩
  · intro data e h
    simp [BucketHandler, h]
  · intro data body e hd hm
    exact BucketHandler_of_manager_error eng scan command data w _ body e hd (Prod.ext hm rfl)
  · intro data body mgr msg e hd hm hr
    rw [BucketHandler_of_manager eng scan command data w _ body mgr hd (Prod.ext hm rfl)]
    simp [hr]
  · intro data body mgr output hd hm hr
    rw [BucketHandler_of_manager eng scan command data w _ body mgr hd (Prod.ext hm rfl)]
    simp [hr]

/-- C2: on "up" against an engine whose calls all succeed but whose outputs have
no "websiteUrl", no stage returns an error, yet the response is neither 200 nor
500: the handler panics in Run before it writes a response. -/
theorem BucketHandler_up_missing_output_no_response :
    jsonUnmarshal fakeScan myBucketBody zeroSpec = .ok ⟨"my-bucket", "hi"⟩ ∧
    (NewBucketManager (fakeOk []).engine ⟨devStack, ⟨"my-bucket", "hi"⟩⟩ freshWorld).1
      = .ok devManager ∧
    (BucketHandler (fakeOk []).engine fakeScan "up" ⟨.ok myBucketBody⟩ freshWorld).1
      = .panicked "interface conversion: interface {} is nil, not string" :=
  ⟨rfl, rfl, rfl⟩

/-- A text that is not JSON is rejected by `json.Unmarshal` with the syntax
error, whatever the struct. -/
theorem jsonUnmarshal_syntax_error (scan : List UInt8 → Except GoError Json)
    (data : List UInt8) (body : BucketStackSpec) (e : GoError) (h : scan data = .error e) :
    jsonUnmarshal scan data body = .error e := by
  simp [jsonUnmarshal, h]

/-- C6: a body that `json.Unmarshal` rejects, for its syntax or for a value that
does not fit the struct, is answered with status 500 and the description of the
decode error, and the world is as before: NewBucketManager and Run are not
called, the engine receives nothing. -/
theorem BucketHandler_decode_error (eng : Engine σ) (scan : List UInt8 → Except GoError Json)
    (command : String) (data : List UInt8) (w : World σ) (e : GoError)
    (h : jsonUnmarshal scan data zeroSpec = .error e) :
    BucketHandler eng scan command ⟨.ok data⟩ w = (.ret ⟨500, [("error", e.msg)]⟩, w) := by
  simp [BucketHandler, h]

/-- C6 on the body `not json`, with the handler of "up" on the fake engine. -/
theorem BucketHandler_decode_error_witness :
    BucketHandler (fakeOk []).engine fakeScan "up" ⟨.ok notJsonBody⟩ freshWorld
      = (.ret ⟨500, [("error", "invalid character 'o' in literal null (expecting 'u')")]⟩,
         freshWorld) :=
  BucketHandler_decode_error (fakeOk []).engine fakeScan "up" notJsonBody freshWorld
    ⟨"invalid character 'o' in literal null (expecting 'u')"⟩ rfl

/-- C4: a body that is the JSON object with the keys "bucketName": b and
"customMessage": m decodes to the spec with BucketName = b and CustomMessage = m,
and the handler hands that spec to NewBucketManager (its first engine call is the
upsert of stack "dev" with the program of that spec); POST /bucket/ is the handler
of "up", and against an engine whose upsert, SetAllConfig and Up succeed with a
string "websiteUrl" output e it answers 200 with the message "Website URL: e"
after exactly those three calls. -/
theorem BucketHandler_documented_body (eng : Engine σ)
    (scan : List UInt8 → Except GoError Json) (data : List UInt8) (w : World σ) (b m : String)
    (hscan : scan data = .ok (.obj [("bucketName", .str b), ("customMessage", .str m)])) :
    jsonUnmarshal scan data zeroSpec = .ok { BucketName := b, CustomMessage := m } ∧
    (∀ command, ∃ rest, (BucketHandler eng scan command ⟨.ok data⟩ w).2.calls
      = w.calls ++ upsertCall ⟨devStack, ⟨b, m⟩⟩ :: rest) ∧
    serve eng scan "POST" "/bucket/" ⟨.ok data⟩ w
      = some (BucketHandler eng scan "up" ⟨.ok data⟩ w) ∧
    (∀ s up e, (upsertResult eng ⟨devStack, ⟨b, m⟩⟩ w).1 = .ok s →
      (eng.SetAllConfig s (pulumiConfig s ⟨b, m⟩) (upsertResult eng ⟨devStack, ⟨b, m⟩⟩ w).2).1
        = none →
      (eng.Up s (eng.SetAllConfig s (pulumiConfig s ⟨b, m⟩)
        (upsertResult eng ⟨devStack, ⟨b, m⟩⟩ w).2).2).result = .ok up →
      (up.Outputs.get "websiteUrl").Value = .str e →
      (BucketHandler eng scan "up" ⟨.ok data⟩ w).1
        = .ret ⟨200, [("message", "Website URL: " ++ e)]⟩ ∧
      (BucketHandler eng scan "up" ⟨.ok data⟩ w).2.calls
        = w.calls ++ [upsertCall ⟨devStack, ⟨b, m⟩⟩,
            EngineCall.SetAllConfig s (pulumiConfig s ⟨b, m⟩),
            EngineCall.Up s [Writer.Stdout]]) := by
  have hd := jsonUnmarshal_documented_keys scan data b m hscan
  refine ⟨hd, fun command => BucketHandler_calls eng scan command data w _ hd, ?_, ?_⟩
  · simp [serve, routes]
  · intro s up e hs hc hup hv
    have hm := NewBucketManager_eq eng ⟨devStack, ⟨b, m⟩⟩ w
    simp only [hs, hc] at hm
    rw [BucketHandler_of_manager eng scan "up" data w _ _ _ hd hm, Run_up]
    simp [hup, hv, Json.assertString]

/-- C4 on the dispatch example: bucket "my-bucket", message "hi", and a fake
engine that returns the endpoint of that bucket. -/
theorem BucketHandler_documented_body_witness :
    serve (fakeOk myBucketOutputs).engine fakeScan "POST" "/bucket/" ⟨.ok myBucketBody⟩ freshWorld
      = some (BucketHandler (fakeOk myBucketOutputs).engine fakeScan "up" ⟨.ok myBucketBody⟩
          freshWorld) ∧
    (BucketHandler (fakeOk myBucketOutputs).engine fakeScan "up" ⟨.ok myBucketBody⟩ freshWorld).1
      = .ret ⟨200, [("message",
          "Website URL: my-bucket.s3-website-us-east-1.amazonaws.com")]⟩ ∧
    (BucketHandler (fakeOk myBucketOutputs).engine fakeScan "up" ⟨.ok myBucketBody⟩
        freshWorld).2.calls
      = [upsertCall ⟨devStack, ⟨"my-bucket", "hi"⟩⟩,
         EngineCall.SetAllConfig ⟨"dev"⟩ (pulumiConfig ⟨"dev"⟩ ⟨"my-bucket", "hi"⟩),
         EngineCall.Up ⟨"dev"⟩ [Writer.Stdout]] :=
  ⟨(BucketHandler_documented_body (fakeOk myBucketOutputs).engine fakeScan myBucketBody
      freshWorld "my-bucket" "hi" rfl).2.2.1,
   (BucketHandler_documented_body (fakeOk myBucketOutputs).engine fakeScan myBucketBody
      freshWorld "my-bucket" "hi" rfl).2.2.2 ⟨"dev"⟩ ⟨"", "", myBucketOutputs⟩
      myBucketEndpoint rfl rfl rfl rfl⟩

/-- C5 (counterexample): a request whose body decodes to an empty bucket name is
not failed; on "destroy" with an engine whose calls succeed the handler upserts
the stack, sets its configuration, destroys it and answers 200. -/
theorem BucketHandler_empty_bucket_name_accepted :
    jsonUnmarshal fakeScan emptyNameBody zeroSpec = .ok ⟨"", "hi"⟩ ∧
    (BucketHandler (fakeOk []).engine fakeScan "destroy" ⟨.ok emptyNameBody⟩ freshWorld).1
      = .ret ⟨200, [("message", "Stack successfully destroyed: dev")]⟩ ∧
    (BucketHandler (fakeOk []).engine fakeScan "destroy" ⟨.ok emptyNameBody⟩ freshWorld).2.calls
      = [upsertCall ⟨devStack, ⟨"", "hi"⟩⟩,
         EngineCall.SetAllConfig ⟨"dev"⟩ (pulumiConfig ⟨"dev"⟩ ⟨"", "hi"⟩),
         EngineCall.Destroy ⟨"dev"⟩ [Writer.Stdout]] :=
  ⟨rfl, rfl, rfl⟩

/-- C5 (amended): for a request whose decoded spec has an empty bucket name the
handler makes no check of its own. The spec is handed to NewBucketManager, so
the first engine call is the upsert of stack "dev" with the program of that
spec; the response is 200 with Run's message when NewBucketManager and Run
succeed, and a 500 response carries the description of the error that
NewBucketManager or Run returned. -/
theorem BucketHandler_empty_bucket_name (eng : Engine σ)
    (scan : List UInt8 → Except GoError Json) (command : String) (data : List UInt8)
    (w : World σ) (body : BucketStackSpec)
    (hd : jsonUnmarshal scan data zeroSpec = .ok body) (_hempty : body.BucketName = "") :
    (∃ rest, (BucketHandler eng scan command ⟨.ok data⟩ w).2.calls
      = w.calls ++ upsertCall ⟨devStack, body⟩ :: rest) ∧
    (∀ mgr output, (NewBucketManager eng ⟨devStack, body⟩ w).1 = .ok mgr →
      (mgr.Run eng command (NewBucketManager eng ⟨devStack, body⟩ w).2).1 = .ret (output, none) →
      (BucketHandler eng scan command ⟨.ok data⟩ w).1 = .ret ⟨200, [("message", output)]⟩) ∧
    (∀ obj, (BucketHandler eng scan command ⟨.ok data⟩ w).1 = .ret ⟨500, obj⟩ →
      ∃ e, obj = [("error", e.msg)] ∧
        ((NewBucketManager eng ⟨devStack, body⟩ w).1 = .error e ∨
         ∃ mgr msg, (NewBucketManager eng ⟨devStack, body⟩ w).1 = .ok mgr ∧
           (mgr.Run eng command (NewBucketManager eng ⟨devStack, body⟩ w).2).1
             = .ret (msg, some e))) := by
  refine ⟨BucketHandler_calls eng scan command data w body hd, ?_, ?_⟩
  · intro mgr output hm hr
    rw [BucketHandler_of_manager eng scan command data w _ body mgr hd (Prod.ext hm rfl)]
    simp [hr]
  · intro obj h
    rcases hm : NewBucketManager eng ⟨devStack, body⟩ w with ⟨r, w1⟩
    cases r with
    | error err =>
      rw [BucketHandler_of_manager_error eng scan command data w w1 body err hd hm] at h
      simp only [Go.ret.injEq, Response.mk.injEq, true_and] at h
      exact ⟨err, h.symm, Or.inl rfl⟩
    | ok mgr =>
      rw [BucketHandler_of_manager eng scan command data w w1 body mgr hd hm] at h
      rcases hr : (mgr.Run eng command w1).1 with ⟨msg, _ | err⟩ | v
      · simp [hr] at h
      · simp only [hr, Go.ret.injEq, Response.mk.injEq, true_and] at h
        exact ⟨err, h.symm, Or.inr ⟨mgr, msg, rfl, hr⟩⟩
      · simp [hr] at h

/-- C5 (amended) on the fake engine: the body with the empty bucket name, on
"destroy". -/
theorem BucketHandler_empty_bucket_name_witness :
    (BucketHandler (fakeOk []).engine fakeScan "destroy" ⟨.ok emptyNameBody⟩ freshWorld).1
      = .ret ⟨200, [("message", "Stack successfully destroyed: dev")]⟩ :=
  (BucketHandler_empty_bucket_name (fakeOk []).engine fakeScan "destroy" emptyNameBody
    freshWorld ⟨"", "hi"⟩ rfl rfl).2.1 devManager "Stack successfully destroyed: dev" rfl rfl

/-! ## The messages of Run and its progress streams -/

/-- The manager NewBucketManager returns is named by the stack name it was given. -/
theorem NewBucketManager_name (eng : Engine σ) (args : BucketStackArgs) (w : World σ)
    (mgr : BucketStackManager) (h : (NewBucketManager eng args w).1 = .ok mgr) :
    mgr.Name = args.Stack.StackName := by
  rw [NewBucketManager_eq] at h
  cases hu : (upsertResult eng args w).1 with
  | error e => simp [hu] at h
  | ok s =>
    simp only [hu] at h
    cases hc : (eng.SetAllConfig s (pulumiConfig s args.Spec) (upsertResult eng args w).2).1 with
    | some e => simp [hc] at h
    | none =>
      simp only [hc] at h
      rw [← Except.ok.inj h]

/-- C7: when the engine call of the verb succeeds, Run returns with a nil error
"Website URL: " and the string "websiteUrl" output for "up", and for "refresh",
"destroy" and "cancel" the success message of the verb followed by the name of
the manager; when the engine call fails with e, Run returns the empty message
and e. The name of the manager is the stack name given to NewBucketManager, and
a manager made by BucketHandler is named "dev". -/
theorem Run_messages (eng : Engine σ) (b : BucketStackManager) (w : World σ) :
    (∀ up endpoint, (eng.Up b.Stack w.engine).result = .ok up →
      (up.Outputs.get "websiteUrl").Value = .str endpoint →
      (b.Run eng "up" w).1 = .ret ("Website URL: " ++ endpoint, none)) ∧
    ((eng.Refresh b.Stack w.engine).result = .ok () →
      (b.Run eng "refresh" w).1 = .ret ("Stack refreshed successfully: " ++ b.Name, none)) ∧
    ((eng.Destroy b.Stack w.engine).result = .ok () →
      (b.Run eng "destroy" w).1 = .ret ("Stack successfully destroyed: " ++ b.Name, none)) ∧
    ((eng.Cancel b.Stack w.engine).1 = none →
      (b.Run eng "cancel" w).1 = .ret ("Stack successfully canceled: " ++ b.Name, none)) ∧
    (∀ e, (eng.Up b.Stack w.engine).result = .error e →
      (b.Run eng "up" w).1 = .ret ("", some e)) ∧
    (∀ e, (eng.Refresh b.Stack w.engine).result = .error e →
      (b.Run eng "refresh" w).1 = .ret ("", some e)) ∧
    (∀ e, (eng.Destroy b.Stack w.engine).result = .error e →
      (b.Run eng "destroy" w).1 = .ret ("", some e)) ∧
    (∀ e, (eng.Cancel b.Stack w.engine).1 = some e →
      (b.Run eng "cancel" w).1 = .ret ("", some e)) ∧
    (∀ (args : BucketStackArgs) (w0 : World σ) (mgr : BucketStackManager),
      (NewBucketManager eng args w0).1 = .ok mgr → mgr.Name = args.Stack.StackName) ∧
    (∀ (scan : List UInt8 → Except GoError Json) (data : List UInt8) (body : BucketStackSpec)
      (w0 : World σ) (command : String),
      jsonUnmarshal scan data zeroSpec = .ok body →
      ∀ mgr, (NewBucketManager eng ⟨devStack, body⟩ w0).1 = .ok mgr →
        mgr.Name = "dev" ∧
        BucketHandler eng scan command ⟨.ok data⟩ w0 =
          (match (mgr.Run eng command (NewBucketManager eng ⟨devStack, body⟩ w0).2).1 with
            | .panicked v => .panicked v
            | .ret (_, some err) => .ret ⟨500, [("error", err.msg)]⟩
            | .ret (output, none) => .ret ⟨200, [("message", output)]⟩,
           (mgr.Run eng command (NewBucketManager eng ⟨devStack, body⟩ w0).2).2)) := by
  refine ⟨?_, ?_, ?_, ?_, ?_, ?_, ?_, ?_, ?_, ?_⟩
  · intro up endpoint hup hv
    rw [Run_up]
    simp [hup, hv, Json.assertString]
  · intro h
    rw [Run_refresh]
    simp [h]
  · intro h
    rw [Run_destroy]
    simp [h]
  · intro h
    rw [Run_cancel]
    simp [h]
  · intro e h
    rw [Run_up]
    simp [h]
  · intro e h
    rw [Run_refresh]
    simp [h]
  · intro e h
    rw [Run_destroy]
    simp [h]
  · intro e h
    rw [Run_cancel]
    simp [h]
  · intro args w0 mgr h
    exact NewBucketManager_name eng args w0 mgr h
  · intro scan data body w0 command hd mgr hm
    exact ⟨NewBucketManager_name eng ⟨devStack, body⟩ w0 mgr hm,
      BucketHandler_of_manager eng scan command data w0 _ body mgr hd (Prod.ext hm rfl)⟩

/-- C7 on the fake engines: the four success messages for the manager "dev", and
the error of a failed `Up` returned as it is. -/
theorem Run_messages_witness :
    (devManager.Run (fakeOk myBucketOutputs).engine "up" freshWorld).1
      = .ret ("Website URL: my-bucket.s3-website-us-east-1.amazonaws.com", none) ∧
    (devManager.Run (fakeOk []).engine "refresh" freshWorld).1
      = .ret ("Stack refreshed successfully: dev", none) ∧
    (devManager.Run (fakeOk []).engine "destroy" freshWorld).1
      = .ret ("Stack successfully destroyed: dev", none) ∧
    (devManager.Run (fakeOk []).engine "cancel" freshWorld).1
      = .ret ("Stack successfully canceled: dev", none) ∧
    (devManager.Run fakeUpFails.engine "up" freshWorld).1
      = .ret ("", some ⟨"failed to run update: exit status 255"⟩) :=
  ⟨(Run_messages (fakeOk myBucketOutputs).engine devManager freshWorld).1
      ⟨"", "", myBucketOutputs⟩ myBucketEndpoint rfl rfl,
   (Run_messages (fakeOk []).engine devManager freshWorld).2.1 rfl,
   (Run_messages (fakeOk []).engine devManager freshWorld).2.2.1 rfl,
   (Run_messages (fakeOk []).engine devManager freshWorld).2.2.2.1 rfl,
   (Run_messages fakeUpFails.engine devManager freshWorld).2.2.2.2.1
      ⟨"failed to run update: exit status 255"⟩ rfl⟩

/-- C10 (counterexample): on "refresh" no progress stream is passed to the
engine, and the progress text of the engine is not written to standard output. -/
theorem Run_refresh_passes_no_stream :
    (devManager.Run (fakeOk []).engine "refresh" freshWorld).2.calls
      = [EngineCall.Refresh ⟨"dev"⟩ []] ∧
    (devManager.Run (fakeOk []).engine "refresh" freshWorld).2.stdout
      = [StdoutWrite.Printf "Refreshing stack: %s\n" ["dev"]] :=
  ⟨rfl, rfl⟩

/-- C10 (amended): Run passes standard output as the progress stream to the
engine call of "up" and of "destroy", whose progress text is written there, and
passes none for "refresh" and for "cancel"; the returned message and error, the
calls made and the state of the engine do not depend on the text streamed. -/
theorem Run_progress_streams (eng : Engine σ) (b : BucketStackManager) (w : World σ) :
    ((b.Run eng "up" w).2.calls = w.calls ++ [EngineCall.Up b.Stack [Writer.Stdout]] ∧
      StdoutWrite.Progress (eng.Up b.Stack w.engine).progress ∈ (b.Run eng "up" w).2.stdout) ∧
    ((b.Run eng "destroy" w).2.calls = w.calls ++ [EngineCall.Destroy b.Stack [Writer.Stdout]] ∧
      StdoutWrite.Progress (eng.Destroy b.Stack w.engine).progress
        ∈ (b.Run eng "destroy" w).2.stdout) ∧
    ((b.Run eng "refresh" w).2.calls = w.calls ++ [EngineCall.Refresh b.Stack []] ∧
      ∀ text, StdoutWrite.Progress text ∈ (b.Run eng "refresh" w).2.stdout →
        StdoutWrite.Progress text ∈ w.stdout) ∧
    ((b.Run eng "cancel" w).2.calls = w.calls ++ [EngineCall.Cancel b.Stack] ∧
      ∀ text, StdoutWrite.Progress text ∈ (b.Run eng "cancel" w).2.stdout →
        StdoutWrite.Progress text ∈ w.stdout) ∧
    (∀ (f : String → String) (action : String),
      (b.Run (eng.mapProgress f) action w).1 = (b.Run eng action w).1 ∧
      (b.Run (eng.mapProgress f) action w).2.calls = (b.Run eng action w).2.calls ∧
      (b.Run (eng.mapProgress f) action w).2.engine = (b.Run eng action w).2.engine) := by
  refine ⟨?_, ?_, ?_, ?_, ?_⟩
  · rw [Run_up]; simp
  · rw [Run_destroy]; simp
  · rw [Run_refresh]
    refine ⟨rfl, ?_⟩
    intro text h
    cases hr : (eng.Refresh b.Stack w.engine).result <;> simpa [hr] using h
  · rw [Run_cancel]
    refine ⟨rfl, ?_⟩
    intro text h
    simpa using h
  · intro f action
    by_cases h1 : action = "up"
    · subst h1; rw [Run_up, Run_up]; exact ⟨rfl, rfl, rfl⟩
    by_cases h2 : action = "refresh"
    · subst h2; rw [Run_refresh, Run_refresh]; exact ⟨rfl, rfl, rfl⟩
    by_cases h3 : action = "destroy"
    · subst h3; rw [Run_destroy, Run_destroy]; exact ⟨rfl, rfl, rfl⟩
    by_cases h4 : action = "cancel"
    · subst h4; rw [Run_cancel, Run_cancel]; exact ⟨rfl, rfl, rfl⟩
    · rw [Run_default _ b action w h1 h2 h3 h4, Run_default _ b action w h1 h2 h3 h4]
      exact ⟨rfl, rfl, rfl⟩

/-! ## Theorems about the resource graph -/

/-- Whatever the SDK answers, the program declares an initial segment of its
graph: all of it, followed by the export of the website endpoint, when it
returns nil, and a proper segment when it returns an error. -/
theorem bucketDeployFunc_declares (args : BucketStackArgs) (ctx : Context) :
    ∃ declared rest, (bucketDeployFunc args ctx).2.resources = ctx.resources ++ declared ∧
      declared ++ rest = declaredGraph args ∧
      ((bucketDeployFunc args ctx).1 = none → rest = [] ∧
        (bucketDeployFunc args ctx).2.exports
          = ctx.exports ++ [("websiteUrl", Input.Output (siteBucketOf args) "WebsiteEndpoint")]) ∧
      (rest = [] → (bucketDeployFunc args ctx).1 = none) := by
  simp only [bucketDeployFunc, Context.newResource]
  cases h1 : ctx.register ctx.resources (bucketDecl args) with
  | some e => exact ⟨[], declaredGraph args, by simp, by simp, by simp, by simp [declaredGraph]⟩
  | none =>
    simp only []
    cases h2 : ctx.register (ctx.resources ++ [bucketDecl args])
        (objectDecl args (bucketDecl args).resource) with
    | some e => exact ⟨[bucketDecl args], _, by simp, rfl, by simp, by simp⟩
    | none =>
      simp only []
      cases h3 : ctx.register (ctx.resources ++ [bucketDecl args]
          ++ [objectDecl args (bucketDecl args).resource])
          (accessBlockDecl (bucketDecl args).resource) with
      | some e =>
        exact ⟨[bucketDecl args, objectDecl args (siteBucketOf args)], _,
          by simp [siteBucketOf], rfl, by simp, by simp⟩
      | none =>
        simp only []
        cases h4 : ctx.register (ctx.resources ++ [bucketDecl args]
            ++ [objectDecl args (bucketDecl args).resource]
            ++ [accessBlockDecl (bucketDecl args).resource])
            (policyDecl (bucketDecl args).resource
              (accessBlockDecl (bucketDecl args).resource).resource) with
        | some e =>
          exact ⟨[bucketDecl args, objectDecl args (siteBucketOf args),
              accessBlockDecl (siteBucketOf args)], _,
            by simp [siteBucketOf], rfl, by simp, by simp⟩
        | none =>
          exact ⟨declaredGraph args, [],
            by simp [declaredGraph, siteBucketOf, accessBlockOf, Context.Export], by simp,
            by simp [Context.Export, siteBucketOf], by simp⟩

/-- The program when the SDK accepts its four declarations, each at the point
where the program makes it: it returns nil, having declared the four and
exported the website endpoint. -/
theorem bucketDeployFunc_accepted (args : BucketStackArgs) (ctx : Context)
    (h1 : ctx.register ctx.resources (bucketDecl args) = none)
    (h2 : ctx.register (ctx.resources ++ [bucketDecl args])
      (objectDecl args (siteBucketOf args)) = none)
    (h3 : ctx.register (ctx.resources ++ [bucketDecl args, objectDecl args (siteBucketOf args)])
      (accessBlockDecl (siteBucketOf args)) = none)
    (h4 : ctx.register (ctx.resources ++ [bucketDecl args, objectDecl args (siteBucketOf args),
        accessBlockDecl (siteBucketOf args)])
      (policyDecl (siteBucketOf args) (accessBlockOf args)) = none) :
    bucketDeployFunc args ctx =
      (none, { register := ctx.register,
               resources := ctx.resources ++ declaredGraph args,
               exports := ctx.exports
                 ++ [("websiteUrl", Input.Output (siteBucketOf args) "WebsiteEndpoint")] }) := by
  simp only [siteBucketOf, accessBlockOf] at h2 h3 h4
  simp [bucketDeployFunc, Context.newResource, h1, h2, h3, h4, Context.Export, declaredGraph,
    siteBucketOf, accessBlockOf]

/-- The program when the SDK refuses its first declaration, the bucket: it
returns that error and has declared nothing. -/
theorem bucketDeployFunc_bucket_refused (args : BucketStackArgs) (ctx : Context) (e : GoError)
    (h : ctx.register ctx.resources (bucketDecl args) = some e) :
    bucketDeployFunc args ctx = (some e, ctx) := by
  simp [bucketDeployFunc, Context.newResource, h]

/-- C9 (counterexample): for the empty bucket name the SDK refuses the bucket,
whose resource name is the bucket name; the program returns that error and the
graph it has declared is empty: no bucket, no object, no access block, no
policy. -/
theorem bucketDeployFunc_empty_bucket_name_declares_nothing :
    (bucketDeployFunc ⟨devStack, ⟨"", "hi"⟩⟩ sdkContext).1
      = some ⟨"resource name argument (for URN creation) cannot be empty"⟩ ∧
    (bucketDeployFunc ⟨devStack, ⟨"", "hi"⟩⟩ sdkContext).2.resources = [] :=
  ⟨rfl, rfl⟩

/-- C9 (amended): whenever the SDK accepts the four declarations of the
program, each at the point where the program makes it, the program returns nil
and has declared, in this order, one bucket (index document "index.html"), one
object with key "index.html", one public access block with BlockPublicAcls =
false and one policy allowing "s3:GetObject" to principal "*", the policy with
an explicit dependency on the public access block and nothing else with a
dependency. When the SDK refuses the bucket the program returns that error and
declares nothing, and in every run what is declared is an initial segment of
the four, complete exactly when the program returns nil. In an application order
that respects the declared dependencies the public access block comes before the
policy. -/
theorem bucketDeployFunc_graph (args : BucketStackArgs) (ctx : Context) :
    (ctx.register ctx.resources (bucketDecl args) = none →
      ctx.register (ctx.resources ++ [bucketDecl args])
        (objectDecl args (siteBucketOf args)) = none →
      ctx.register (ctx.resources ++ [bucketDecl args, objectDecl args (siteBucketOf args)])
        (accessBlockDecl (siteBucketOf args)) = none →
      ctx.register (ctx.resources ++ [bucketDecl args, objectDecl args (siteBucketOf args),
          accessBlockDecl (siteBucketOf args)])
        (policyDecl (siteBucketOf args) (accessBlockOf args)) = none →
      (bucketDeployFunc args ctx).1 = none ∧
      (bucketDeployFunc args ctx).2.resources = ctx.resources ++ declaredGraph args ∧
      (bucketDeployFunc args ctx).2.exports
        = ctx.exports ++ [("websiteUrl", Input.Output (siteBucketOf args) "WebsiteEndpoint")]) ∧
    (∀ e, ctx.register ctx.resources (bucketDecl args) = some e →
      (bucketDeployFunc args ctx).1 = some e ∧
      (bucketDeployFunc args ctx).2.resources = ctx.resources) ∧
    (∃ declared rest, (bucketDeployFunc args ctx).2.resources = ctx.resources ++ declared ∧
      declared ++ rest = declaredGraph args ∧
      ((bucketDeployFunc args ctx).1 = none ↔ rest = [])) ∧
    (declaredGraph args).map (fun d => d.resource)
      = [⟨.Bucket, args.Spec.BucketName⟩, ⟨.BucketObject, "index"⟩,
         ⟨.BucketPublicAccessBlock, "public-access-block"⟩, ⟨.BucketPolicy, "bucketPolicy"⟩] ∧
    (∃ bucket object accessBlock policy,
      declaredGraph args = [bucket, object, accessBlock, policy] ∧
      ("Website", Input.Args [("IndexDocument", Input.String "index.html")]) ∈ bucket.args ∧
      ("Key", Input.String "index.html") ∈ object.args ∧
      ("BlockPublicAcls", Input.Bool false) ∈ accessBlock.args ∧
      ("Policy", Input.Any (Input.map [
          ("Version", Input.str "2012-10-17"),
          ("Statement", Input.slice [Input.map [
            ("Effect", Input.str "Allow"),
            ("Principal", Input.str "*"),
            ("Action", Input.slice [Input.str "s3:GetObject"]),
            ("Resource", Input.slice [Input.Sprintf "arn:aws:s3:::%s/*"
              [Input.Output bucket.resource "ID"]])]])])) ∈ policy.args ∧
      policy.dependsOn = [accessBlock.resource] ∧
      bucket.dependsOn = [] ∧ object.dependsOn = [] ∧ accessBlock.dependsOn = []) ∧
    (∀ order, respectsDependencies (declaredGraph args) order → policyOf args ∈ order →
      order.indexOf (accessBlockOf args) < order.indexOf (policyOf args)) := by
  refine ⟨?_, ?_, ?_, rfl, ?_, ?_⟩
  · intro h1 h2 h3 h4
    rw [bucketDeployFunc_accepted args ctx h1 h2 h3 h4]
    exact ⟨rfl, rfl, rfl⟩
  · intro e h
    rw [bucketDeployFunc_bucket_refused args ctx e h]
    exact ⟨rfl, rfl⟩
  · obtain ⟨declared, rest, h1, h2, h3, h4⟩ := bucketDeployFunc_declares args ctx
    exact ⟨declared, rest, h1, h2, fun h => (h3 h).1, h4⟩
  · refine ⟨_, _, _, _, rfl, ?_, ?_, ?_, ?_, rfl, rfl, rfl, rfl⟩
    · simp [bucketDecl]
    · simp [objectDecl]
    · simp [accessBlockDecl]
    · simp [policyDecl, policyDocument, siteBucketOf]
  · intro order hresp hin
    exact hresp (policyDecl (siteBucketOf args) (accessBlockOf args)) (by simp [declaredGraph]) hin
      (accessBlockOf args) (by simp [policyDecl])

/-- C9 (amended) on the bucket "my-bucket", with the SDK that refuses only an
empty resource name, and on an order that applies the policy right after the
access block. -/
theorem bucketDeployFunc_graph_witness :
    (bucketDeployFunc ⟨devStack, ⟨"my-bucket", "hi"⟩⟩ sdkContext).1 = none ∧
    (bucketDeployFunc ⟨devStack, ⟨"my-bucket", "hi"⟩⟩ sdkContext).2.resources
      = declaredGraph ⟨devStack, ⟨"my-bucket", "hi"⟩⟩ ∧
    List.indexOf (accessBlockOf ⟨devStack, ⟨"my-bucket", "hi"⟩⟩)
        [siteBucketOf ⟨devStack, ⟨"my-bucket", "hi"⟩⟩,
          accessBlockOf ⟨devStack, ⟨"my-bucket", "hi"⟩⟩,
          policyOf ⟨devStack, ⟨"my-bucket", "hi"⟩⟩, ⟨.BucketObject, "index"⟩]
      < List.indexOf (policyOf ⟨devStack, ⟨"my-bucket", "hi"⟩⟩)
        [siteBucketOf ⟨devStack, ⟨"my-bucket", "hi"⟩⟩,
          accessBlockOf ⟨devStack, ⟨"my-bucket", "hi"⟩⟩,
          policyOf ⟨devStack, ⟨"my-bucket", "hi"⟩⟩, ⟨.BucketObject, "index"⟩] :=
  ⟨((bucketDeployFunc_graph ⟨devStack, ⟨"my-bucket", "hi"⟩⟩ sdkContext).1 rfl rfl rfl rfl).1,
   ((bucketDeployFunc_graph ⟨devStack, ⟨"my-bucket", "hi"⟩⟩ sdkContext).1 rfl rfl rfl rfl).2.1,
   (bucketDeployFunc_graph ⟨devStack, ⟨"my-bucket", "hi"⟩⟩ sdkContext).2.2.2.2.2 _ (by decide)
     (by decide)⟩

end PulumiApiRest
